import Mathlib

/-!
Verification of the Task Manager core: the Task entity, the in-memory
TaskStorage (src/models/task_model.py), the request validators
(src/utils/validators.py) and the argument plumbing of the update route
(src/routes/task_routes.py), shallowly embedded in Lean.

Python dictionaries are modelled as insertion-ordered association lists
with unique keys maintained by the operations; Python `None` is modelled
by `Option.none`. The date check `datetime.strptime(s, "%Y-%m-%d")` is
modelled by the regular expression the CPython `_strptime` module
compiles for that format, namely
  `\d\d\d\d-(1[0-2]|0[1-9]|[1-9])-(3[01]|[12]\d|0[1-9]|[1-9])`
matched from the start with leftmost-alternative semantics, followed by
the full-consumption check and the calendar-validity check of the
`datetime` constructor (MINYEAR = 1, MAXYEAR = 9999). The class `\d`
matches any Unicode decimal digit (category Nd), modelled by the table
of the 66 ten-codepoint Nd runs of the Unicode data CPython uses; the
other classes and literals of the pattern are ASCII, so a non-ASCII
digit can occur only in the year and as the second character of a
two-digit day starting in 1 or 2, exactly as in CPython. int() converts
each Unicode digit to its decimal value.
-/

namespace TaskManager

/-- A task, as in class Task of src/models/task_model.py. -/
structure Task where
  id : Nat
  title : String
  description : String
  due_date : String
  status : String
deriving Repr, DecidableEq

/-- Task.VALID_STATUSES from src/models/task_model.py. -/
def VALID_STATUSES : List String := ["Pending", "In Progress", "Completed"]

/-- Task.update: each keyword argument overwrites its field when it is not
None, modelled as `Option.none` for the None default. -/
def Task.update (t : Task) (title : Option String) (description : Option String)
    (due_date : Option String) (status : Option String) : Task :=
  { t with
    title := title.getD t.title
    description := description.getD t.description
    due_date := due_date.getD t.due_date
    status := status.getD t.status }

/-- The tasks dictionary: insertion-ordered association list from id to Task. -/
abbrev TaskDict := List (Nat × Task)

/-- Dictionary lookup, dict.get(k): the entry with key k, if any. -/
def dictFind (m : TaskDict) (k : Nat) : Option Task :=
  match m with
  | [] => none
  | (k2, v) :: rest => if k2 = k then some v else dictFind rest k

/-- Dictionary assignment d[k] = v: replaces the value in place when the
key is present, appends otherwise, as a Python dict does. -/
def dictSet (m : TaskDict) (k : Nat) (v : Task) : TaskDict :=
  match m with
  | [] => [(k, v)]
  | (k2, v2) :: rest => if k2 = k then (k2, v) :: rest else (k2, v2) :: dictSet rest k v

/-- Dictionary deletion del d[k]. -/
def dictDelete (m : TaskDict) (k : Nat) : TaskDict :=
  match m with
  | [] => []
  | (k2, v2) :: rest => if k2 = k then rest else (k2, v2) :: dictDelete rest k

/-- In-memory storage, class TaskStorage of src/models/task_model.py. -/
structure TaskStorage where
  tasks : TaskDict
  next_id : Nat
deriving Repr, DecidableEq

/-- TaskStorage.__init__: empty mapping, counter starts at 1. -/
def TaskStorage.init : TaskStorage := { tasks := [], next_id := 1 }

/-- TaskStorage.create_task: builds the task at id next_id, stores it,
increments next_id and returns it. -/
def TaskStorage.create_task (s : TaskStorage) (title : String) (description : String)
    (due_date : String) (status : String := "Pending") : Task × TaskStorage :=
  let task : Task :=
    { id := s.next_id, title := title, description := description,
      due_date := due_date, status := status }
  (task, { tasks := dictSet s.tasks s.next_id task, next_id := s.next_id + 1 })

/-- TaskStorage.get_task: self.tasks.get(task_id). -/
def TaskStorage.get_task (s : TaskStorage) (task_id : Nat) : Option Task :=
  dictFind s.tasks task_id

/-- TaskStorage.get_all_tasks: list(self.tasks.values()). -/
def TaskStorage.get_all_tasks (s : TaskStorage) : List Task :=
  s.tasks.map Prod.snd

/-- TaskStorage.update_task: fetches the task; when present, mutates it
through Task.update and returns it, else returns None and leaves the
store untouched. -/
def TaskStorage.update_task (s : TaskStorage) (task_id : Nat) (title : Option String)
    (description : Option String) (due_date : Option String) (status : Option String) :
    Option Task × TaskStorage :=
  match s.get_task task_id with
  | none => (none, s)
  | some t =>
    let t2 := t.update title description due_date status
    (some t2, { s with tasks := dictSet s.tasks task_id t2 })

/-- TaskStorage.delete_task: removes the entry when the key is present and
reports whether a removal occurred. -/
def TaskStorage.delete_task (s : TaskStorage) (task_id : Nat) : Bool × TaskStorage :=
  if (dictFind s.tasks task_id).isSome then
    (true, { s with tasks := dictDelete s.tasks task_id })
  else
    (false, s)

/-- A decoded JSON request body: keys to values, where a value is either a
string or JSON null (`Option.none`). -/
abbrev Payload := List (String × Option String)

/-- Python dict.get(k) on a request body: None both when the key is absent
and when the key holds JSON null. -/
def pyDictGet (data : Payload) (k : String) : Option String :=
  match data with
  | [] => none
  | (k2, v) :: rest => if k2 = k then v else pyDictGet rest k

/-- The storage call made by the PUT /tasks route
(src/routes/task_routes.py, update_task): every field is passed as
data.get(name). -/
def route_update_call (s : TaskStorage) (task_id : Nat) (data : Payload) :
    Option Task × TaskStorage :=
  s.update_task task_id (pyDictGet data "title") (pyDictGet data "description")
    (pyDictGet data "due_date") (pyDictGet data "status")

/-! ## Operation sequences over the store, for the id-uniqueness invariant. -/

/-- One store operation. -/
inductive Op where
  | create (title : String) (description : String) (due_date : String) (status : String)
  | get (task_id : Nat)
  | listAll
  | update (task_id : Nat) (title : Option String) (description : Option String)
      (due_date : Option String) (status : Option String)
  | delete (task_id : Nat)
deriving Repr, DecidableEq

/-- The store after one operation. -/
def applyOp (s : TaskStorage) : Op → TaskStorage
  | .create t d dd st => (s.create_task t d dd st).2
  | .get _ => s
  | .listAll => s
  | .update i t d dd st => (s.update_task i t d dd st).2
  | .delete i => (s.delete_task i).2

/-- The store after a sequence of operations. -/
def execOps (s : TaskStorage) (ops : List Op) : TaskStorage :=
  ops.foldl applyOp s

/-- The ids returned by the create operations of a run, in order. -/
def createdIds (s : TaskStorage) : List Op → List Nat
  | [] => []
  | op :: rest =>
    match op with
    | .create t d dd st => ((s.create_task t d dd st).1).id :: createdIds (applyOp s op) rest
    | _ => createdIds (applyOp s op) rest

/-! ## Validators, src/utils/validators.py. -/

/-- Numeric value of an ASCII digit. -/
def digitVal (c : Char) : Nat := c.toNat - 48

/-- Decimal value of an ASCII digit sequence. -/
def decVal (cs : List Char) : Nat :=
  cs.foldl (fun a c => 10 * a + digitVal c) 0

/-- Start code points of the 66 runs of ten consecutive Unicode decimal
digits (category Nd); each run carries the digit values 0 to 9 in order,
as in the Unicode data CPython uses. -/
def ndStarts : List Nat :=
  [48, 1632, 1776, 1984, 2406, 2534, 2662, 2790, 2918, 3046, 3174, 3302,
   3430, 3558, 3664, 3792, 3872, 4160, 4240, 6112, 6160, 6470, 6608, 6784,
   6800, 6992, 7088, 7232, 7248, 42528, 43216, 43264, 43472, 43504, 43600,
   44016, 65296, 66720, 68912, 69734, 69872, 69942, 70096, 70384, 70736,
   70864, 71248, 71360, 71472, 71904, 72016, 72784, 73040, 73120, 92768,
   92864, 93008, 120782, 120792, 120802, 120812, 120822, 123200, 123632,
   125264, 130032]

/-- Unicode decimal digit: the model of a regex `\d` match. -/
def isNd (c : Char) : Bool :=
  ndStarts.any (fun s => s ≤ c.toNat && c.toNat ≤ s + 9)

/-- Numeric value of a Unicode decimal digit, as int() converts it. -/
def ndVal (c : Char) : Nat :=
  c.toNat - ((ndStarts.find? (fun s => s ≤ c.toNat && c.toNat ≤ s + 9)).getD 0)

/-- The regex fragment of %Y: exactly four Unicode decimal digits. -/
def matchYear : List Char → Option (Nat × List Char)
  | c1 :: c2 :: c3 :: c4 :: rest =>
    if isNd c1 && isNd c2 && isNd c3 && isNd c4 then
      some (1000 * ndVal c1 + 100 * ndVal c2 + 10 * ndVal c3 + ndVal c4, rest)
    else none
  | _ => none

/-- The regex fragment of %m, alternatives tried left to right:
`1[0-2]`, then `0[1-9]`, then `[1-9]`. Character classes are written on
code points: code 48 is the digit 0, code 57 is the digit 9. -/
def matchMonth : List Char → Option (Nat × List Char)
  | [] => none
  | c1 :: rest =>
    if c1.toNat = 49 then
      match rest with
      | c2 :: rest2 =>
        if 48 ≤ c2.toNat ∧ c2.toNat ≤ 50 then some (10 + digitVal c2, rest2)
        else some (1, rest)
      | [] => some (1, [])
    else if c1.toNat = 48 then
      match rest with
      | c2 :: rest2 =>
        if 49 ≤ c2.toNat ∧ c2.toNat ≤ 57 then some (digitVal c2, rest2) else none
      | [] => none
    else if 49 ≤ c1.toNat ∧ c1.toNat ≤ 57 then some (digitVal c1, rest)
    else none

/-- The regex fragment of %d, alternatives tried left to right:
`3[01]`, then `[12]\d`, then `0[1-9]`, then `[1-9]`, on code points; the
`\d` of the second alternative matches any Unicode decimal digit. -/
def matchDay : List Char → Option (Nat × List Char)
  | [] => none
  | c1 :: rest =>
    if c1.toNat = 51 then
      match rest with
      | c2 :: rest2 =>
        if c2.toNat = 48 ∨ c2.toNat = 49 then some (30 + digitVal c2, rest2)
        else some (3, rest)
      | [] => some (3, [])
    else if c1.toNat = 49 ∨ c1.toNat = 50 then
      match rest with
      | c2 :: rest2 =>
        if isNd c2 = true then some (10 * digitVal c1 + ndVal c2, rest2)
        else some (digitVal c1, rest)
      | [] => some (digitVal c1, [])
    else if c1.toNat = 48 then
      match rest with
      | c2 :: rest2 =>
        if 49 ≤ c2.toNat ∧ c2.toNat ≤ 57 then some (digitVal c2, rest2) else none
      | [] => none
    else if 49 ≤ c1.toNat ∧ c1.toNat ≤ 57 then some (digitVal c1, rest)
    else none

/-- The literal dash of the format, code point 45. -/
def expectDash : List Char → Option (List Char)
  | [] => none
  | c :: rest => if c.toNat = 45 then some rest else none

/-- Leap years of the proleptic Gregorian calendar, as datetime uses. -/
def isLeapYear (y : Nat) : Bool :=
  y % 4 = 0 && (y % 100 ≠ 0 || y % 400 = 0)

/-- Days in a month, as the datetime constructor checks. -/
def daysInMonth (y : Nat) (m : Nat) : Nat :=
  if m = 2 then (if isLeapYear y then 29 else 28)
  else if m = 4 ∨ m = 6 ∨ m = 9 ∨ m = 11 then 30
  else 31

/-- Validity check of the datetime constructor: MINYEAR ≤ year ≤ MAXYEAR,
month in range, day in range for that month. -/
def dateOk (y : Nat) (m : Nat) (d : Nat) : Bool :=
  1 ≤ y && y ≤ 9999 && 1 ≤ m && m ≤ 12 && 1 ≤ d && d ≤ daysInMonth y m

/-- datetime.strptime(s, "%Y-%m-%d"): the compiled regex matched from the
start, the unconverted-data check, then datetime construction. -/
def strptimeYmd (s : String) : Option (Nat × Nat × Nat) :=
  (matchYear s.data).bind fun p1 =>
  (expectDash p1.2).bind fun r2 =>
  (matchMonth r2).bind fun p2 =>
  (expectDash p2.2).bind fun r4 =>
  (matchDay r4).bind fun p3 =>
  if p3.2 = [] && dateOk p1.1 p2.1 p3.1 then some (p1.1, p2.1, p3.1) else none

/-- validate_date of src/utils/validators.py. -/
def validate_date (date_string : String) : Bool × Option String :=
  match strptimeYmd date_string with
  | some _ => (true, none)
  | none => (false, some "Invalid date format. Use YYYY-MM-DD")

/-- validate_status of src/utils/validators.py. -/
def validate_status (status : String) : Bool × Option String :=
  let valid_statuses : List String := ["Pending", "In Progress", "Completed"]
  if status ∉ valid_statuses then
    (false, some ("Invalid status. Must be one of: " ++ String.intercalate ", " valid_statuses))
  else (true, none)

/-- A request body whose values are strings, as the validators assume. -/
abbrev StrDict := List (String × String)

/-- Python membership test `field in data` on a request body. -/
def strDictHasKey (data : StrDict) (k : String) : Bool :=
  data.any (fun p => p.1 = k)

/-- Python indexing data[k] on a request body, as an Option. -/
def strDictGet (data : StrDict) (k : String) : Option String :=
  match data with
  | [] => none
  | (k2, v) :: rest => if k2 = k then some v else strDictGet rest k

/-- validate_task_data of src/utils/validators.py. -/
def validate_task_data (data : StrDict) (required_fields : List String) :
    Bool × Option String :=
  let missing_fields := required_fields.filter (fun f => ¬ strDictHasKey data f)
  if missing_fields ≠ [] then
    (false, some ("Missing required fields: " ++ String.intercalate ", " missing_fields))
  else (true, none)

/-- validate_create_task of src/utils/validators.py. -/
def validate_create_task (data : StrDict) : Bool × Option String :=
  let r1 := validate_task_data data ["title", "description", "due_date"]
  if ¬ r1.1 then r1
  else
    let r2 := validate_date ((strDictGet data "due_date").getD "")
    if ¬ r2.1 then r2
    else
      if strDictHasKey data "status" then
        let r3 := validate_status ((strDictGet data "status").getD "")
        if ¬ r3.1 then r3 else (true, none)
      else (true, none)

/-- validate_update_task of src/utils/validators.py. -/
def validate_update_task (data : StrDict) : Bool × Option String :=
  if data = [] then (false, some "No fields provided for update")
  else
    let r1 :=
      if strDictHasKey data "due_date" then
        validate_date ((strDictGet data "due_date").getD "")
      else (true, none)
    if ¬ r1.1 then r1
    else
      let r2 :=
        if strDictHasKey data "status" then
          validate_status ((strDictGet data "status").getD "")
        else (true, none)
      if ¬ r2.1 then r2 else (true, none)

/-! ## Date formats as the specification words them. -/

theorem dictFind_dictSet_self (m : TaskDict) (k : Nat) (v : Task) :
    dictFind (dictSet m k v) k = some v := by
  induction m with
  | nil => simp [dictSet, dictFind]
  | cons hd tl ih =>
    obtain ⟨k2, v2⟩ := hd
    by_cases h : k2 = k
    · simp [dictSet, dictFind, h]
    · simp [dictSet, dictFind, h, ih]

theorem dictFind_dictSet_ne (m : TaskDict) (k : Nat) (v : Task) (k2 : Nat) (h : k2 ≠ k) :
    dictFind (dictSet m k v) k2 = dictFind m k2 := by
  induction m with
  | nil => simp [dictSet, dictFind, Ne.symm h]
  | cons hd tl ih =>
    obtain ⟨k3, v3⟩ := hd
    by_cases h3 : k3 = k
    · subst h3
      simp [dictSet, dictFind, Ne.symm h]
    · by_cases h4 : k3 = k2 <;> simp [dictSet, dictFind, h3, h4, ih, h]

theorem dictSet_self (m : TaskDict) (k : Nat) (t : Task) (h : dictFind m k = some t) :
    dictSet m k t = m := by
  induction m with
  | nil => simp [dictFind] at h
  | cons hd tl ih =>
    obtain ⟨k2, v2⟩ := hd
    by_cases h2 : k2 = k
    · subst h2
      simp [dictFind] at h
      simp [dictSet, h]
    · simp [dictFind, h2] at h
      simp [dictSet, h2, ih h]

theorem dictFind_eq_none (m : TaskDict) (k : Nat) (h : k ∉ m.map Prod.fst) :
    dictFind m k = none := by
  induction m with
  | nil => simp [dictFind]
  | cons hd tl ih =>
    obtain ⟨k2, v2⟩ := hd
    simp only [List.map_cons, List.mem_cons] at h
    push_neg at h
    simp [dictFind, Ne.symm h.1, ih h.2]

theorem dictFind_isSome_iff (m : TaskDict) (k : Nat) :
    (dictFind m k).isSome = true ↔ k ∈ m.map Prod.fst := by
  induction m with
  | nil => simp [dictFind]
  | cons hd tl ih =>
    obtain ⟨k2, v2⟩ := hd
    by_cases h : k2 = k
    · subst h
      simp [dictFind]
    · simp [dictFind, h, ih, Ne.symm h]

theorem dictFind_dictDelete_ne (m : TaskDict) (k : Nat) (k2 : Nat) (h : k2 ≠ k) :
    dictFind (dictDelete m k) k2 = dictFind m k2 := by
  induction m with
  | nil => simp [dictDelete, dictFind]
  | cons hd tl ih =>
    obtain ⟨k3, v3⟩ := hd
    by_cases h3 : k3 = k
    · subst h3
      simp [dictDelete, dictFind, Ne.symm h]
    · by_cases h4 : k3 = k2 <;> simp [dictDelete, dictFind, h3, h4, ih, h]

theorem dictFind_dictDelete_self (m : TaskDict) (k : Nat)
    (h : (m.map Prod.fst).Nodup) : dictFind (dictDelete m k) k = none := by
  induction m with
  | nil => simp [dictDelete, dictFind]
  | cons hd tl ih =>
    obtain ⟨k2, v2⟩ := hd
    simp only [List.map_cons, List.nodup_cons] at h
    by_cases h2 : k2 = k
    · subst h2
      have : dictDelete ((k2, v2) :: tl) k2 = tl := by simp [dictDelete]
      rw [this]
      exact dictFind_eq_none tl k2 (by simpa using h.1)
    · simp [dictDelete, dictFind, h2, ih h.2]

theorem dictSet_keys_of_mem (m : TaskDict) (k : Nat) (v : Task)
    (h : k ∈ m.map Prod.fst) : (dictSet m k v).map Prod.fst = m.map Prod.fst := by
  induction m with
  | nil => simp at h
  | cons hd tl ih =>
    obtain ⟨k2, v2⟩ := hd
    by_cases h2 : k2 = k
    · simp [dictSet, h2]
    · simp only [List.map_cons, List.mem_cons] at h
      rcases h with h | h
      · exact absurd h.symm h2
      · simp [dictSet, h2, ih h]

theorem dictSet_keys_of_not_mem (m : TaskDict) (k : Nat) (v : Task)
    (h : k ∉ m.map Prod.fst) :
    (dictSet m k v).map Prod.fst = m.map Prod.fst ++ [k] := by
  induction m with
  | nil => simp [dictSet]
  | cons hd tl ih =>
    obtain ⟨k2, v2⟩ := hd
    simp only [List.map_cons, List.mem_cons] at h
    push_neg at h
    simp [dictSet, Ne.symm h.1, ih h.2]

theorem dictDelete_keys_sublist (m : TaskDict) (k : Nat) :
    ((dictDelete m k).map Prod.fst).Sublist (m.map Prod.fst) := by
  induction m with
  | nil => simp [dictDelete]
  | cons hd tl ih =>
    obtain ⟨k2, v2⟩ := hd
    by_cases h : k2 = k
    · simp only [dictDelete, if_pos h, List.map_cons]
      exact List.sublist_cons_self k2 (tl.map Prod.fst)
    · simp only [dictDelete, if_neg h, List.map_cons]
      exact ih.cons₂ k2

/-- Task.update with every argument None returns the task unchanged. -/
theorem Task.update_none (t : Task) : t.update none none none none = t := rfl

/-! ## Store invariants for id assignment. -/

/-- Invariant of reachable stores: every stored id is below the counter
and the stored ids are pairwise distinct. -/
def goodState (s : TaskStorage) : Prop :=
  (∀ k ∈ s.tasks.map Prod.fst, k < s.next_id) ∧ (s.tasks.map Prod.fst).Nodup

theorem goodState_init : goodState TaskStorage.init := by
  constructor <;> simp [TaskStorage.init]

theorem update_task_next_id (s : TaskStorage) (i : Nat) (t d dd st : Option String) :
    (s.update_task i t d dd st).2.next_id = s.next_id := by
  unfold TaskStorage.update_task
  cases s.get_task i <;> simp

theorem delete_task_next_id (s : TaskStorage) (i : Nat) :
    (s.delete_task i).2.next_id = s.next_id := by
  unfold TaskStorage.delete_task
  by_cases h : (dictFind s.tasks i).isSome <;> simp [h]

theorem update_task_keys (s : TaskStorage) (i : Nat) (t d dd st : Option String) :
    (s.update_task i t d dd st).2.tasks.map Prod.fst = s.tasks.map Prod.fst := by
  unfold TaskStorage.update_task
  cases h : s.get_task i with
  | none => simp
  | some tk =>
    simp only []
    apply dictSet_keys_of_mem
    rw [← dictFind_isSome_iff]
    unfold TaskStorage.get_task at h
    simp [h]

theorem applyOp_next_id (s : TaskStorage) (op : Op) :
    (applyOp s op).next_id =
      match op with
      | .create _ _ _ _ => s.next_id + 1
      | _ => s.next_id := by
  cases op with
  | create t d dd st => rfl
  | get i => rfl
  | listAll => rfl
  | update i t d dd st => exact update_task_next_id s i t d dd st
  | delete i => exact delete_task_next_id s i

theorem goodState_applyOp (s : TaskStorage) (op : Op) (h : goodState s) :
    goodState (applyOp s op) := by
  obtain ⟨hb, hn⟩ := h
  cases op with
  | create t d dd st =>
    have hmem : s.next_id ∉ s.tasks.map Prod.fst := fun hm => absurd (hb _ hm) (lt_irrefl _)
    have hkeys : (applyOp s (.create t d dd st)).tasks.map Prod.fst =
        s.tasks.map Prod.fst ++ [s.next_id] := by
      simp [applyOp, TaskStorage.create_task, dictSet_keys_of_not_mem _ _ _ hmem]
    constructor
    · intro k hk
      rw [hkeys] at hk
      have hnext : (applyOp s (.create t d dd st)).next_id = s.next_id + 1 := rfl
      rw [hnext]
      rcases List.mem_append.mp hk with hk | hk
      · exact Nat.lt_succ_of_lt (hb k hk)
      · simp at hk
        omega
    · rw [hkeys]
      exact List.Nodup.append hn (List.nodup_singleton _) (by simpa using hmem)
  | get i => exact ⟨hb, hn⟩
  | listAll => exact ⟨hb, hn⟩
  | update i t d dd st =>
    have hkeys := update_task_keys s i t d dd st
    have hnext := update_task_next_id s i t d dd st
    exact ⟨fun k hk => hnext ▸ hb k (hkeys ▸ hk), hkeys ▸ hn⟩
  | delete i =>
    have hnext := delete_task_next_id s i
    have hsub : ((s.delete_task i).2.tasks.map Prod.fst).Sublist (s.tasks.map Prod.fst) := by
      unfold TaskStorage.delete_task
      by_cases h : (dictFind s.tasks i).isSome <;> simp [h]
      exact dictDelete_keys_sublist s.tasks i
    exact ⟨fun k hk => hnext ▸ hb k (hsub.mem hk), hsub.nodup hn⟩

theorem goodState_execOps (ops : List Op) :
    ∀ s : TaskStorage, goodState s → goodState (execOps s ops) := by
  induction ops with
  | nil => intro s hs; exact hs
  | cons op rest ih =>
    intro s hs
    exact ih (applyOp s op) (goodState_applyOp s op hs)

theorem createdIds_bounds (ops : List Op) :
    ∀ s : TaskStorage, goodState s →
      (∀ i ∈ createdIds s ops, s.next_id ≤ i) ∧ (createdIds s ops).Pairwise (· < ·) := by
  induction ops with
  | nil => intro s _; simp [createdIds]
  | cons op rest ih =>
    intro s hs
    obtain ⟨ihb, ihp⟩ := ih (applyOp s op) (goodState_applyOp s op hs)
    cases op with
    | create t d dd st =>
      have hnext : (applyOp s (.create t d dd st)).next_id = s.next_id + 1 := rfl
      have hids : createdIds s (.create t d dd st :: rest) =
          s.next_id :: createdIds (applyOp s (.create t d dd st)) rest := rfl
      rw [hids]
      constructor
      · intro i hi
        rcases List.mem_cons.mp hi with hi | hi
        · omega
        · have := ihb i hi
          omega
      · refine List.Pairwise.cons (fun j hj => ?_) ihp
        have := ihb j hj
        omega
    | get i =>
      exact ⟨fun j hj => ihb j hj, ihp⟩
    | listAll =>
      exact ⟨fun j hj => ihb j hj, ihp⟩
    | update i t d dd st =>
      have hnext : (applyOp s (.update i t d dd st)).next_id = s.next_id :=
        update_task_next_id s i t d dd st
      have hids : createdIds s (.update i t d dd st :: rest) =
          createdIds (applyOp s (.update i t d dd st)) rest := rfl
      rw [hids]
      exact ⟨fun j hj => hnext ▸ ihb j hj, ihp⟩
    | delete i =>
      have hnext : (applyOp s (.delete i)).next_id = s.next_id := delete_task_next_id s i
      have hids : createdIds s (.delete i :: rest) =
          createdIds (applyOp s (.delete i)) rest := rfl
      rw [hids]
      exact ⟨fun j hj => hnext ▸ ihb j hj, ihp⟩

/-! ## Correspondence of the modelled date parser with its format. -/

theorem decVal_four (a b c d : Char) :
    decVal [a, b, c, d] =
      1000 * (a.toNat - 48) + 100 * (b.toNat - 48) + 10 * (c.toNat - 48) + (d.toNat - 48) := by
  simp [decVal, digitVal]
  ring

theorem bool_eq_true_of_ne_false {b : Bool} (h : ¬ b = false) : b = true := by
  cases b
  · exact absurd rfl h
  · rfl

theorem validate_date_fst (s : String) :
    (validate_date s).1 = (strptimeYmd s).isSome := by
  unfold validate_date
  cases strptimeYmd s <;> rfl

theorem validate_date_of_false (s : String) (h : (validate_date s).1 = false) :
    validate_date s = (false, some "Invalid date format. Use YYYY-MM-DD") := by
  rw [validate_date_fst] at h
  unfold validate_date
  cases hh : strptimeYmd s with
  | none => rfl
  | some v =>
    rw [hh] at h
    exact absurd h (by simp)

theorem validate_date_of_true (s : String) (h : (validate_date s).1 = true) :
    validate_date s = (true, none) := by
  rw [validate_date_fst] at h
  unfold validate_date
  cases hh : strptimeYmd s with
  | none =>
    rw [hh] at h
    exact absurd h (by simp)
  | some v => rfl

theorem validate_status_eq (st : String) :
    validate_status st =
      if st = "Pending" ∨ st = "In Progress" ∨ st = "Completed" then (true, none)
      else (false, some "Invalid status. Must be one of: Pending, In Progress, Completed") := by
  by_cases h : st = "Pending" ∨ st = "In Progress" ∨ st = "Completed"
  · rw [if_pos h]
    unfold validate_status
    rw [if_neg (not_not_intro (by simpa using h))]
  · rw [if_neg h]
    unfold validate_status
    rw [if_pos (by simpa using h)]
    rfl

theorem validate_status_of_false (v : String) (h : (validate_status v).1 = false) :
    validate_status v =
      (false, some "Invalid status. Must be one of: Pending, In Progress, Completed") := by
  rw [validate_status_eq] at h ⊢
  by_cases hm : v = "Pending" ∨ v = "In Progress" ∨ v = "Completed"
  · rw [if_pos hm] at h
    exact absurd h (by decide)
  · rw [if_neg hm]

theorem validate_status_of_true (v : String) (h : (validate_status v).1 = true) :
    validate_status v = (true, none) := by
  rw [validate_status_eq] at h ⊢
  by_cases hm : v = "Pending" ∨ v = "In Progress" ∨ v = "Completed"
  · rw [if_pos hm]
  · rw [if_neg hm] at h
    exact absurd h (by decide)

theorem validate_task_data_eq (data : StrDict) (req : List String) :
    validate_task_data data req =
      if req.filter (fun f => ¬ strDictHasKey data f) = [] then (true, none)
      else (false, some ("Missing required fields: " ++
        String.intercalate ", " (req.filter (fun f => ¬ strDictHasKey data f)))) := by
  unfold validate_task_data
  by_cases h : req.filter (fun f => ¬ strDictHasKey data f) = []
  · rw [if_neg (not_not_intro h), if_pos h]
  · rw [if_pos h, if_neg h]

/-! ## Characterizations of the store update. -/

theorem update_task_eq_none (s : TaskStorage) (tid : Nat)
    (ti de du st : Option String) (h : s.get_task tid = none) :
    s.update_task tid ti de du st = (none, s) := by
  unfold TaskStorage.update_task
  rw [h]

theorem update_task_eq_some (s : TaskStorage) (tid : Nat)
    (ti de du st : Option String) (t : Task) (h : s.get_task tid = some t) :
    s.update_task tid ti de du st =
      (some (t.update ti de du st),
        { s with tasks := dictSet s.tasks tid (t.update ti de du st) }) := by
  unfold TaskStorage.update_task
  rw [h]

/-! ## Concrete fixtures, the sample task of the test suite. -/

/-- The sample task the test suite creates. -/
def sampleTask : Task :=
  { id := 1, title := "Test Task", description := "This is a test task",
    due_date := "2026-12-31", status := "Pending" }

/-- A store holding the sample task under id 1, with next id 2: the store
produced by one create on a fresh store. -/
def sampleStore : TaskStorage := { tasks := [(1, sampleTask)], next_id := 2 }

/-! ## The claims. -/

/-- Claim C1: along every sequence of create, get, list, update and delete
operations from a fresh store, the ids returned by the creates are
strictly increasing in order of creation — each create returns an id
strictly greater than every previously assigned id, so no two tasks ever
share an id and a deleted id is never assigned again — and the ids
stored at the end are pairwise distinct. -/
theorem created_ids_strictly_monotone (ops : List Op) :
    (createdIds TaskStorage.init ops).Pairwise (· < ·) ∧
    ((execOps TaskStorage.init ops).tasks.map Prod.fst).Nodup :=
  ⟨(createdIds_bounds ops TaskStorage.init goodState_init).2,
   (goodState_execOps ops TaskStorage.init goodState_init).2⟩

/-- Claim C2: update on an id with no task returns none and leaves the
store unchanged, whatever the payload; on a stored task it returns the
very task now stored under that id, whose id is unchanged, where every
supplied field carries the supplied value and every field not supplied
keeps its previous value — in particular an update supplying only status
changes only status. -/
theorem update_task_frame (s : TaskStorage) (tid : Nat) (ti de du st : Option String) :
    (s.get_task tid = none → s.update_task tid ti de du st = (none, s)) ∧
    (∀ t : Task, s.get_task tid = some t →
      ∃ t2 : Task,
        (s.update_task tid ti de du st).1 = some t2 ∧
        (s.update_task tid ti de du st).2.get_task tid = some t2 ∧
        t2.id = t.id ∧
        (ti = none → t2.title = t.title) ∧ (∀ v, ti = some v → t2.title = v) ∧
        (de = none → t2.description = t.description) ∧
        (∀ v, de = some v → t2.description = v) ∧
        (du = none → t2.due_date = t.due_date) ∧ (∀ v, du = some v → t2.due_date = v) ∧
        (st = none → t2.status = t.status) ∧ (∀ v, st = some v → t2.status = v)) := by
  refine ⟨fun h => update_task_eq_none s tid ti de du st h, fun t h => ?_⟩
  refine ⟨t.update ti de du st, ?_, ?_, rfl, ?_, ?_, ?_, ?_, ?_, ?_, ?_, ?_⟩
  · rw [update_task_eq_some s tid ti de du st t h]
  · rw [update_task_eq_some s tid ti de du st t h]
    show dictFind (dictSet s.tasks tid (t.update ti de du st)) tid = _
    exact dictFind_dictSet_self _ _ _
  · rintro rfl; rfl
  · rintro v rfl; rfl
  · rintro rfl; rfl
  · rintro v rfl; rfl
  · rintro rfl; rfl
  · rintro v rfl; rfl
  · rintro rfl; rfl
  · rintro v rfl; rfl

/-- Witness for C2: updating the stored sample task with only a status
changes only the status. -/
theorem update_task_frame_witness :
    sampleStore.get_task 1 = some sampleTask ∧
    ∃ t2 : Task,
      (sampleStore.update_task 1 none none none (some "Completed")).1 = some t2 ∧
      t2.status = "Completed" ∧ t2.title = "Test Task" ∧
      t2.description = "This is a test task" ∧ t2.due_date = "2026-12-31" := by
  refine ⟨rfl, ?_⟩
  obtain ⟨t2, h1, h2, h3, h4, h5, h6, h7, h8, h9, h10, h11⟩ :=
    (update_task_frame sampleStore 1 none none none (some "Completed")).2 sampleTask rfl
  exact ⟨t2, h1, h11 _ rfl, h4 rfl, h6 rfl, h8 rfl⟩

/-- Claim C4: create returns the task with id equal to the current next id
and exactly the given field values, increments next id by one, stores the
returned task under its id, and never fails; with no status supplied the
status is "Pending", and a supplied status is stored as given. -/
theorem create_task_spec (s : TaskStorage) (title description due_date : String) :
    (s.create_task title description due_date).1 =
      { id := s.next_id, title := title, description := description,
        due_date := due_date, status := "Pending" } ∧
    (s.create_task title description due_date).2.next_id = s.next_id + 1 ∧
    (s.create_task title description due_date).2.get_task s.next_id =
      some (s.create_task title description due_date).1 ∧
    (∀ st : String, (s.create_task title description due_date st).1.status = st) := by
  refine ⟨rfl, rfl, ?_, fun st => rfl⟩
  show dictFind (dictSet s.tasks s.next_id _) s.next_id = some _
  exact dictFind_dictSet_self _ _ _

/-- Claim C5: validateCreate first checks presence of title, description
and due_date, failing with a message listing all missing names, comma
joined, in that order, without checking anything else; then it validates
the due_date format; then the status, only when the status key is
present; it returns the first failure and success otherwise, and an
absent status is not an error. -/
theorem validate_create_task_spec (data : StrDict) :
    validate_create_task data =
      if (["title", "description", "due_date"].filter
          (fun f => ¬ strDictHasKey data f)) ≠ [] then
        (false, some ("Missing required fields: " ++ String.intercalate ", "
          (["title", "description", "due_date"].filter (fun f => ¬ strDictHasKey data f))))
      else if (validate_date ((strDictGet data "due_date").getD "")).1 = false then
        (false, some "Invalid date format. Use YYYY-MM-DD")
      else if strDictHasKey data "status" = true ∧
          (validate_status ((strDictGet data "status").getD "")).1 = false then
        (false, some "Invalid status. Must be one of: Pending, In Progress, Completed")
      else (true, none) := by
  by_cases h1 : (["title", "description", "due_date"].filter
      (fun f => ¬ strDictHasKey data f)) = []
  · rw [if_neg (not_not_intro h1)]
    have hmiss : validate_task_data data ["title", "description", "due_date"] =
        (true, none) := by
      rw [validate_task_data_eq, if_pos h1]
    by_cases h2 : (validate_date ((strDictGet data "due_date").getD "")).1 = false
    · rw [if_pos h2]
      unfold validate_create_task
      simp [hmiss, validate_date_of_false _ h2]
    · rw [if_neg h2]
      have hdt := validate_date_of_true _ (bool_eq_true_of_ne_false h2)
      by_cases h3 : strDictHasKey data "status" = true ∧
          (validate_status ((strDictGet data "status").getD "")).1 = false
      · rw [if_pos h3]
        unfold validate_create_task
        simp [hmiss, hdt, h3.1, validate_status_of_false _ h3.2]
      · rw [if_neg h3]
        by_cases hk : strDictHasKey data "status" = true
        · have hsf : ¬ (validate_status ((strDictGet data "status").getD "")).1 = false :=
            fun hb => h3 ⟨hk, hb⟩
          have hst := validate_status_of_true _ (bool_eq_true_of_ne_false hsf)
          unfold validate_create_task
          simp [hmiss, hdt, hk, hst]
        · unfold validate_create_task
          simp [hmiss, hdt, hk]
  · rw [if_pos h1]
    have hmiss := validate_task_data_eq data ["title", "description", "due_date"]
    rw [if_neg h1] at hmiss
    unfold validate_create_task
    simp [hmiss]

/-- Claim C6: validateUpdate fails with "No fields provided for update"
exactly on the empty mapping; on a non-empty mapping it checks due_date
when that key is present, then status when that key is present, in that
order, returning the first failure and success otherwise; no particular
field is required. -/
theorem validate_update_task_spec (data : StrDict) :
    (validate_update_task data = (false, some "No fields provided for update") ↔
      data = []) ∧
    validate_update_task data =
      (if data = [] then (false, some "No fields provided for update")
       else if strDictHasKey data "due_date" = true ∧
           (validate_date ((strDictGet data "due_date").getD "")).1 = false then
         (false, some "Invalid date format. Use YYYY-MM-DD")
       else if strDictHasKey data "status" = true ∧
           (validate_status ((strDictGet data "status").getD "")).1 = false then
         (false, some "Invalid status. Must be one of: Pending, In Progress, Completed")
       else (true, none)) := by
  have heq : validate_update_task data =
      (if data = [] then (false, some "No fields provided for update")
       else if strDictHasKey data "due_date" = true ∧
           (validate_date ((strDictGet data "due_date").getD "")).1 = false then
         (false, some "Invalid date format. Use YYYY-MM-DD")
       else if strDictHasKey data "status" = true ∧
           (validate_status ((strDictGet data "status").getD "")).1 = false then
         (false, some "Invalid status. Must be one of: Pending, In Progress, Completed")
       else (true, none)) := by
    by_cases h0 : data = []
    · rw [if_pos h0]
      unfold validate_update_task
      rw [if_pos h0]
    · rw [if_neg h0]
      by_cases hdk : strDictHasKey data "due_date" = true
      · by_cases hdf : (validate_date ((strDictGet data "due_date").getD "")).1 = false
        · rw [if_pos ⟨hdk, hdf⟩]
          unfold validate_update_task
          simp [h0, hdk, validate_date_of_false _ hdf]
        · rw [if_neg (fun hc => hdf hc.2)]
          have hdt := validate_date_of_true _ (bool_eq_true_of_ne_false hdf)
          by_cases hsk : strDictHasKey data "status" = true
          · by_cases hsf : (validate_status ((strDictGet data "status").getD "")).1 = false
            · rw [if_pos ⟨hsk, hsf⟩]
              unfold validate_update_task
              simp [h0, hdk, hdt, hsk, validate_status_of_false _ hsf]
            · rw [if_neg (fun hc => hsf hc.2)]
              have hst := validate_status_of_true _ (bool_eq_true_of_ne_false hsf)
              unfold validate_update_task
              simp [h0, hdk, hdt, hsk, hst]
          · rw [if_neg (fun hc => hsk hc.1)]
            unfold validate_update_task
            simp [h0, hdk, hdt, hsk]
      · rw [if_neg (fun hc => hdk hc.1)]
        by_cases hsk : strDictHasKey data "status" = true
        · by_cases hsf : (validate_status ((strDictGet data "status").getD "")).1 = false
          · rw [if_pos ⟨hsk, hsf⟩]
            unfold validate_update_task
            simp [h0, hdk, hsk, validate_status_of_false _ hsf]
          · rw [if_neg (fun hc => hsf hc.2)]
            have hst := validate_status_of_true _ (bool_eq_true_of_ne_false hsf)
            unfold validate_update_task
            simp [h0, hdk, hsk, hst]
        · rw [if_neg (fun hc => hsk hc.1)]
          unfold validate_update_task
          simp [h0, hdk, hsk]
  refine ⟨⟨?_, ?_⟩, heq⟩
  · intro hcontra
    by_contra h0
    rw [heq, if_neg h0] at hcontra
    split_ifs at hcontra <;> exact absurd hcontra (by decide)
  · intro h0
    rw [heq, if_pos h0]

/-- Claim C7: delete removes the stored task exactly when the id is known,
returning true on removal and false otherwise; an unknown id leaves the
store unchanged; after a delete, a get of the same id is not found and
every other id is unaffected. Stated for stores whose stored ids are
distinct, an invariant of every reachable store. -/
theorem delete_task_spec (s : TaskStorage) (tid : Nat)
    (hnd : (s.tasks.map Prod.fst).Nodup) :
    ((s.delete_task tid).1 = true ↔ (s.get_task tid).isSome = true) ∧
    (s.delete_task tid).2.get_task tid = none ∧
    (∀ k, k ≠ tid → (s.delete_task tid).2.get_task k = s.get_task k) ∧
    ((s.get_task tid).isSome = false → (s.delete_task tid).2 = s) := by
  unfold TaskStorage.delete_task TaskStorage.get_task
  by_cases h : (dictFind s.tasks tid).isSome = true
  · rw [if_pos h]
    refine ⟨by simp [h], ?_, ?_, ?_⟩
    · exact dictFind_dictDelete_self s.tasks tid hnd
    · exact fun k hk => dictFind_dictDelete_ne s.tasks tid k hk
    · intro h2
      rw [h] at h2
      exact absurd h2 (by decide)
  · rw [if_neg h]
    have hn : dictFind s.tasks tid = none := by
      cases hf : dictFind s.tasks tid with
      | none => rfl
      | some v =>
        rw [hf] at h
        exact absurd rfl h
    exact ⟨by simp [hn], hn, fun k hk => rfl, fun h2 => rfl⟩

/-- Witness for C7: deleting the stored sample task succeeds and a get of
the same id afterwards is not found. -/
theorem delete_task_spec_witness :
    (sampleStore.tasks.map Prod.fst).Nodup ∧
    (sampleStore.delete_task 1).1 = true ∧
    (sampleStore.delete_task 1).2.get_task 1 = none := by
  have hnd : (sampleStore.tasks.map Prod.fst).Nodup := by decide
  have h := delete_task_spec sampleStore 1 hnd
  exact ⟨hnd, h.1.mpr rfl, h.2.1⟩

/-- Claim C8: validateStatus succeeds exactly on the three literal strings
Pending, In Progress and Completed, and on failure carries the exact
message "Invalid status. Must be one of: Pending, In Progress,
Completed". -/
theorem validate_status_spec (status : String) :
    ((validate_status status).1 = true ↔
      (status = "Pending" ∨ status = "In Progress" ∨ status = "Completed")) ∧
    ((validate_status status).1 = false →
      (validate_status status).2 =
        some "Invalid status. Must be one of: Pending, In Progress, Completed") := by
  rw [validate_status_eq status]
  by_cases h : status = "Pending" ∨ status = "In Progress" ∨ status = "Completed"
  · simp [h]
  · simp [h]

/-- Witness for C8: the status "Done" is rejected with the exact message. -/
theorem validate_status_spec_witness :
    (validate_status "Done").1 = false ∧
    (validate_status "Done").2 =
      some "Invalid status. Must be one of: Pending, In Progress, Completed" :=
  ⟨by decide, (validate_status_spec "Done").2 (by decide)⟩

/-- Counterexample to C9 as stated: in the update route a field supplied
as JSON null produces exactly the storage call of an absent field, and
the null value is not applied: with the sample task stored, a payload
whose title is explicitly null leaves the task unchanged. -/
theorem null_title_treated_as_absent :
    route_update_call sampleStore 1 [("title", (none : Option String))] =
      route_update_call sampleStore 1 [] ∧
    (route_update_call sampleStore 1 [("title", (none : Option String))]).1 =
      some sampleTask := by
  constructor
  · rfl
  · rfl

/-- Claim C9 as amended: the None sentinel distinguishes an explicitly
supplied empty string, which is treated as provided and applied, from an
absent field; but a field explicitly supplied as JSON null is
indistinguishable from an absent field and is not applied. -/
theorem empty_string_applied_null_ignored (s : TaskStorage) (tid : Nat) (t : Task)
    (h : s.get_task tid = some t) :
    (s.update_task tid (some "") none none none).1 = some { t with title := "" } ∧
    route_update_call s tid [("title", (none : Option String))] =
      route_update_call s tid [] ∧
    (route_update_call s tid [("title", (none : Option String))]).1 = some t := by
  refine ⟨?_, rfl, ?_⟩
  · rw [update_task_eq_some s tid (some "") none none none t h]
    rfl
  · show (s.update_task tid none none none none).1 = some t
    rw [update_task_eq_some s tid none none none none t h, Task.update_none]

/-- Witness for the amended C9 at the sample store. -/
theorem empty_string_applied_null_ignored_witness :
    sampleStore.get_task 1 = some sampleTask ∧
    (sampleStore.update_task 1 (some "") none none none).1 =
      some { sampleTask with title := "" } ∧
    (route_update_call sampleStore 1 [("title", (none : Option String))]).1 =
      some sampleTask := by
  have h := empty_string_applied_null_ignored sampleStore 1 sampleTask rfl
  exact ⟨rfl, h.1, h.2.2⟩

/-- Claim C10: at the store level an update that supplies no field
succeeds on any stored task: it returns the task unchanged and leaves
the store unchanged, so the empty update is rejected only by the
validator in the boundary layer, not by the store. -/
theorem update_task_empty_fields (s : TaskStorage) (tid : Nat) (t : Task)
    (h : s.get_task tid = some t) :
    s.update_task tid none none none none = (some t, s) := by
  rw [update_task_eq_some s tid none none none none t h, Task.update_none]
  rw [dictSet_self s.tasks tid t h]

/-- Witness for C10 at the sample store. -/
theorem update_task_empty_fields_witness :
    sampleStore.get_task 1 = some sampleTask ∧
    sampleStore.update_task 1 none none none none = (some sampleTask, sampleStore) :=
  ⟨rfl, update_task_empty_fields sampleStore 1 sampleTask rfl⟩

end TaskManager
